import Mathlib

/-!
# Verification of the OpenBob window-tracking core

A shallow embedding of the window tracking and time-accounting engine:
`WindowInfo` and `WindowInfo.update_times` (src/core/data_models.py),
the reconciliation step `TimeTracker._update_windows`, the tracking loop,
`clear`, `get_stats` and the read accessors (src/core/time_tracker.py),
and the platform factory `create_window_tracker`
(src/core/window_tracker_factory.py).

Timestamps and intervals are modelled as rationals (the code uses float
seconds from `time.time()` / `datetime.now()`); within one reconciliation
cycle every `now` call is idealised to the cycle's single timestamp.
The engine's `self._windows` dict is modelled as an insertion-ordered
association list `List (Nat × WindowInfo)`, matching Python dict
semantics (lookup by key, new keys appended at the end, iteration in
insertion order).
-/

/-- Mirror of the `WindowInfo` dataclass (src/core/data_models.py).
`datetime` fields and `timedelta` fields are both rationals (seconds). -/
structure WindowInfo where
  hwnd : Nat
  title : String
  process_name : String
  first_seen : Rat
  last_seen : Rat
  total_open_time : Rat
  active_time : Rat
  is_active : Bool
  is_visible : Bool
deriving DecidableEq, Repr

/-- Mirror of `WindowInfo.update_times(interval, is_currently_active)`:
sets `last_seen = now`, recomputes `total_open_time = now - first_seen`,
and when active adds `interval` to `active_time` and sets `is_active`,
otherwise clears `is_active`. -/
def WindowInfo.update_times (w : WindowInfo) (now interval : Rat)
    (is_currently_active : Bool) : WindowInfo :=
  let w1 := { w with last_seen := now, total_open_time := now - w.first_seen }
  if is_currently_active then
    { w1 with active_time := w1.active_time + interval, is_active := true }
  else
    { w1 with is_active := false }

/-- The engine's `self._windows` dict: insertion-ordered map hwnd ↦ record. -/
abbrev WMap := List (Nat × WindowInfo)

/-- `self._windows.get(hwnd)`: value stored under the key, if any. -/
def lookupW : WMap → Nat → Option WindowInfo
  | [], _ => none
  | p :: t, h => if p.1 = h then some p.2 else lookupW t h

/-- `hwnd in self._windows`. -/
def containsW : WMap → Nat → Bool
  | [], _ => false
  | p :: t, h => if p.1 = h then true else containsW t h

/-- In-place mutation of the record stored under key `h` (dict entry update,
preserving insertion order). -/
def updateEntry : WMap → Nat → (WindowInfo → WindowInfo) → WMap
  | [], _, _ => []
  | p :: t, h, f => (if p.1 = h then (p.1, f p.2) else p) :: updateEntry t h f

/-- The existing-window branch of `_update_windows` (platform path,
time_tracker.py lines 185-191): `existing.update_times(interval,
is_currently_active)`, then `existing.title = window_info.title`,
`existing.is_visible = window_info.is_visible`,
`existing.is_active = is_currently_active`. `process_name` is not touched. -/
def refreshExisting (now interval : Rat) (wi w : WindowInfo) : WindowInfo :=
  let u := w.update_times now interval wi.is_active
  { u with title := wi.title, is_visible := wi.is_visible, is_active := wi.is_active }

/-- One snapshot entry of the platform-path loop body of `_update_windows`:
update an already-tracked record in place, or insert the new record with
`first_seen = last_seen = now` (appended at the dict's end). -/
def processEntry (now interval : Rat) (m : WMap) (wi : WindowInfo) : WMap :=
  if containsW m wi.hwnd then
    updateEntry m wi.hwnd (refreshExisting now interval wi)
  else
    m ++ [(wi.hwnd, { wi with first_seen := now, last_seen := now })]

/-- The trailing loop of `_update_windows` (lines 199-204): every tracked
hwnd absent from `current_hwnds` gets `is_visible = False`; nothing else
changes and nothing is removed. -/
def markInvisible : WMap → List Nat → WMap
  | [], _ => []
  | p :: t, hs =>
      (if p.1 ∈ hs then p else (p.1, { p.2 with is_visible := false })) ::
        markInvisible t hs

/-- `TimeTracker._update_windows(interval)` on the platform path: fold the
snapshot through `processEntry`, then mark absent windows invisible. -/
def update_windows (m : WMap) (snap : List WindowInfo) (now interval : Rat) : WMap :=
  markInvisible (snap.foldl (processEntry now interval) m) (snap.map WindowInfo.hwnd)

/-- One snapshot entry of the simulation-path loop body (lines 157-178):
entries are `(hwnd, title, process_name)` tuples and activity is decided by
`hwnd == active_hwnd`; an existing record gets `update_times`, a new title
and `is_visible = True`; a new record is constructed with
`first_seen = last_seen = now` and default zero timers. -/
def processEntrySim (now interval : Rat) (active_hwnd : Option Nat)
    (m : WMap) (e : Nat × String × String) : WMap :=
  let is_currently_active : Bool := active_hwnd == some e.1
  if containsW m e.1 then
    updateEntry m e.1 (fun existing =>
      let u := existing.update_times now interval is_currently_active
      { u with title := e.2.1, is_visible := true })
  else
    m ++ [(e.1, ⟨e.1, e.2.1, e.2.2, now, now, 0, 0, is_currently_active, true⟩)]

/-- `TimeTracker._update_windows(interval)` on the simulation path. -/
def update_windows_sim (m : WMap) (snap : List (Nat × String × String))
    (active_hwnd : Option Nat) (now interval : Rat) : WMap :=
  markInvisible (snap.foldl (processEntrySim now interval active_hwnd) m)
    (snap.map Prod.fst)

/-- `TimeTracker.clear()`: empties the map entirely. -/
def clearW (_ : WMap) : WMap := []

/-- Result of `TimeTracker.get_stats()`. -/
structure Stats where
  total_windows : Nat
  visible_windows : Nat
  active_window : Option String
  is_running : Bool
  simulation_mode : Bool
deriving DecidableEq, Repr

/-- `TimeTracker.get_stats()` (lines 206-223): the reported active window is
the FIRST record in iteration order with `is_active`, with no visibility
check (`next((w for w in self._windows.values() if w.is_active), None)`). -/
def get_stats (m : WMap) (running sim : Bool) : Stats :=
  { total_windows := m.length
    visible_windows := m.countP (fun p => p.2.is_visible)
    active_window := (m.find? (fun p => p.2.is_active)).map (fun p => p.2.title)
    is_running := running
    simulation_mode := sim }

/- Concrete scenario data (spec §8 scenarios 1-3): window 1 "Editor" focused
on cycle 1 (now = 1, interval = 1); window 2 "Browser" focused on cycle 2
(now = 2, interval = 1) while window 1 is absent from the snapshot. -/

/-- Snapshot entry for window 1 as a platform source reports it. -/
def w1 : WindowInfo := ⟨1, "Editor", "editor", 0, 0, 0, 0, true, true⟩

/-- Snapshot entry for window 2 as a platform source reports it. -/
def w2 : WindowInfo := ⟨2, "Browser", "browser", 0, 0, 0, 0, true, true⟩

/-- Engine map after cycle 1 (snapshot `[w1]`, now = 1, interval = 1). -/
def mapAfterCycle1 : WMap := update_windows [] [w1] 1 1

/-- Engine map after cycle 2 (snapshot `[w2]` only, now = 2, interval = 1). -/
def mapAfterCycle2 : WMap := update_windows mapAfterCycle1 [w2] 2 1

example : mapAfterCycle1 = [(1, ⟨1, "Editor", "editor", 1, 1, 0, 0, true, true⟩)] := by decide

example : mapAfterCycle2 =
    [(1, ⟨1, "Editor", "editor", 1, 1, 0, 0, true, false⟩),
     (2, ⟨2, "Browser", "browser", 2, 2, 0, 0, true, true⟩)] := by decide

/-- The per-hwnd effect of one snapshot entry on the record stored under its
hwnd: refresh if present, otherwise the freshly inserted record. -/
def applyEntry (now interval : Rat) (wi : WindowInfo) : Option WindowInfo → WindowInfo
  | some w => refreshExisting now interval wi w
  | none => { wi with first_seen := now, last_seen := now }

/-! ## Lookup lemmas for the association-list map -/

theorem containsW_eq_isSome (m : WMap) (h : Nat) :
    containsW m h = (lookupW m h).isSome := by
  induction m with
  | nil => rfl
  | cons p t ih =>
    by_cases hp : p.1 = h
    · simp [containsW, lookupW, hp]
    · simpa [containsW, lookupW, hp] using ih

theorem lookupW_updateEntry_self (m : WMap) (h : Nat) (f : WindowInfo → WindowInfo) :
    lookupW (updateEntry m h f) h = (lookupW m h).map f := by
  induction m with
  | nil => rfl
  | cons p t ih =>
    by_cases hp : p.1 = h
    · simp [updateEntry, lookupW, hp]
    · simpa [updateEntry, lookupW, hp] using ih

theorem lookupW_updateEntry_ne (m : WMap) (h h' : Nat) (f : WindowInfo → WindowInfo)
    (hne : h' ≠ h) : lookupW (updateEntry m h' f) h = lookupW m h := by
  induction m with
  | nil => rfl
  | cons p t ih =>
    by_cases hp' : p.1 = h'
    · simpa [updateEntry, lookupW, hp', hne, Ne.symm hne] using ih
    · by_cases hp : p.1 = h
      · simp [updateEntry, lookupW, hp', hp, Ne.symm hne]
      · simpa [updateEntry, lookupW, hp', hp] using ih

theorem lookupW_append_ne (m : WMap) (h h' : Nat) (w : WindowInfo) (hne : h' ≠ h) :
    lookupW (m ++ [(h', w)]) h = lookupW m h := by
  induction m with
  | nil => simp [lookupW, hne]
  | cons p t ih =>
    by_cases hp : p.1 = h
    · simp [lookupW, hp]
    · simpa [lookupW, hp] using ih

theorem lookupW_append_self (m : WMap) (h : Nat) (w : WindowInfo)
    (hnone : lookupW m h = none) : lookupW (m ++ [(h, w)]) h = some w := by
  induction m with
  | nil => simp [lookupW]
  | cons p t ih =>
    by_cases hp : p.1 = h
    · simp [lookupW, hp] at hnone
    · simp [lookupW, hp] at hnone ⊢
      exact ih hnone

theorem lookupW_markInvisible (m : WMap) (hs : List Nat) (h : Nat) :
    lookupW (markInvisible m hs) h =
      if h ∈ hs then lookupW m h
      else (lookupW m h).map (fun w => { w with is_visible := false }) := by
  induction m with
  | nil => by_cases hc : h ∈ hs <;> simp [markInvisible, lookupW, hc]
  | cons p t ih =>
    by_cases hp : p.1 = h
    · subst hp
      by_cases hc : p.1 ∈ hs <;> simp [markInvisible, lookupW, hc]
    · by_cases hc : p.1 ∈ hs <;> by_cases hch : h ∈ hs <;>
        simpa [markInvisible, lookupW, hp, hc, hch] using ih

theorem lookupW_processEntry_self (now interval : Rat) (m : WMap) (wi : WindowInfo) :
    lookupW (processEntry now interval m wi) wi.hwnd =
      some (applyEntry now interval wi (lookupW m wi.hwnd)) := by
  unfold processEntry
  cases hc : containsW m wi.hwnd
  · have hnone : lookupW m wi.hwnd = none := by
      have := containsW_eq_isSome m wi.hwnd
      rw [hc] at this
      exact Option.not_isSome_iff_eq_none.mp (by simp [← this])
    simp [hnone, lookupW_append_self, applyEntry]
  · have hsome : (lookupW m wi.hwnd).isSome := by
      rw [← containsW_eq_isSome, hc]
    obtain ⟨w, hw⟩ := Option.isSome_iff_exists.mp hsome
    simp [lookupW_updateEntry_self, hw, applyEntry]

theorem lookupW_processEntry_ne (now interval : Rat) (m : WMap) (wi : WindowInfo)
    (h : Nat) (hne : wi.hwnd ≠ h) :
    lookupW (processEntry now interval m wi) h = lookupW m h := by
  unfold processEntry
  cases hc : containsW m wi.hwnd
  · simp [lookupW_append_ne _ _ _ _ hne]
  · simp [lookupW_updateEntry_ne _ _ _ _ hne]

/-- Characterisation of the snapshot fold: with pairwise-distinct snapshot
hwnds, the record under `h` after the fold is the old record transformed by
the (unique) snapshot entry for `h`, or unchanged when `h` is absent. -/
theorem lookupW_foldl_processEntry (now interval : Rat) (snap : List WindowInfo)
    (m : WMap) (h : Nat) (hnd : (snap.map WindowInfo.hwnd).Nodup) :
    lookupW (snap.foldl (processEntry now interval) m) h =
      match snap.find? (fun e => e.hwnd == h) with
      | some e => some (applyEntry now interval e (lookupW m h))
      | none => lookupW m h := by
  induction snap generalizing m with
  | nil => rfl
  | cons e t ih =>
    simp only [List.map_cons, List.nodup_cons] at hnd
    rw [List.foldl_cons, ih _ hnd.2]
    by_cases he : e.hwnd = h
    · subst he
      have hnone : t.find? (fun x => x.hwnd == e.hwnd) = none := by
        rw [List.find?_eq_none]
        intro a ha
        simp only [beq_iff_eq]
        intro hax
        exact hnd.1 (List.mem_map.mpr ⟨a, ha, hax⟩)
      simp [hnone, List.find?_cons, lookupW_processEntry_self]
    · have hne : (e.hwnd == h) = false := by simp [he]
      rw [lookupW_processEntry_ne _ _ _ _ _ he]
      simp [List.find?_cons, hne]

/-- Pointwise characterisation of one full reconciliation cycle
(`_update_windows`), assuming the source snapshot has pairwise-distinct
hwnds: present entries are refreshed/inserted, absent tracked records only
get `is_visible := false`. -/
theorem lookupW_update_windows (m : WMap) (snap : List WindowInfo)
    (now interval : Rat) (h : Nat) (hnd : (snap.map WindowInfo.hwnd).Nodup) :
    lookupW (update_windows m snap now interval) h =
      match snap.find? (fun e => e.hwnd == h) with
      | some e => some (applyEntry now interval e (lookupW m h))
      | none => (lookupW m h).map (fun w => { w with is_visible := false }) := by
  unfold update_windows
  rw [lookupW_markInvisible, lookupW_foldl_processEntry _ _ _ _ _ hnd]
  cases hf : snap.find? (fun e => e.hwnd == h) with
  | some e =>
    have hmem : h ∈ snap.map WindowInfo.hwnd := by
      have hee := List.find?_some hf
      have hme := List.mem_of_find?_eq_some hf
      simp only [beq_iff_eq] at hee
      exact List.mem_map.mpr ⟨e, hme, hee⟩
    simp [hmem, hf]
  | none =>
    have hnmem : ¬ h ∈ snap.map WindowInfo.hwnd := by
      intro hmem
      obtain ⟨e, he, hee⟩ := List.mem_map.mp hmem
      have hne : snap.find? (fun x => x.hwnd == h) ≠ none :=
        Option.isSome_iff_ne_none.mp (List.find?_isSome.mpr ⟨e, he, by simp [hee]⟩)
      exact hne hf
    simp [hnmem, hf]

/-! ## Retention and key lemmas -/

theorem lookupW_isSome_processEntry (now interval : Rat) (m : WMap) (wi : WindowInfo)
    (h : Nat) (hs : (lookupW m h).isSome) :
    (lookupW (processEntry now interval m wi) h).isSome := by
  by_cases he : wi.hwnd = h
  · subst he
    rw [lookupW_processEntry_self]
    rfl
  · rw [lookupW_processEntry_ne _ _ _ _ _ he]
    exact hs

theorem lookupW_isSome_foldl (now interval : Rat) (snap : List WindowInfo)
    (m : WMap) (h : Nat) (hs : (lookupW m h).isSome) :
    (lookupW (snap.foldl (processEntry now interval) m) h).isSome := by
  induction snap generalizing m with
  | nil => exact hs
  | cons e t ih => exact ih _ (lookupW_isSome_processEntry _ _ _ _ _ hs)

theorem lookupW_foldl_not_mem (now interval : Rat) (snap : List WindowInfo)
    (m : WMap) (h : Nat) (hnm : ∀ e ∈ snap, e.hwnd ≠ h) :
    lookupW (snap.foldl (processEntry now interval) m) h = lookupW m h := by
  induction snap generalizing m with
  | nil => rfl
  | cons e t ih =>
    rw [List.foldl_cons, ih _ (fun x hx => hnm x (List.mem_cons_of_mem _ hx)),
        lookupW_processEntry_ne _ _ _ _ _ (hnm e (List.mem_cons_self _ _))]

/-- Keys of the map, in insertion order (`self._windows.keys()`). -/
def keysW (m : WMap) : List Nat := m.map Prod.fst

theorem mem_keysW_iff (m : WMap) (h : Nat) : h ∈ keysW m ↔ (lookupW m h).isSome := by
  induction m with
  | nil => simp [keysW, lookupW]
  | cons p t ih =>
    by_cases hp : p.1 = h
    · simp [keysW, lookupW, hp]
    · simpa [keysW, lookupW, hp, Ne.symm hp] using ih

theorem keysW_updateEntry (m : WMap) (h : Nat) (f : WindowInfo → WindowInfo) :
    keysW (updateEntry m h f) = keysW m := by
  induction m with
  | nil => rfl
  | cons p t ih =>
    by_cases hp : p.1 = h <;> simpa [updateEntry, keysW, hp] using ih

theorem keysW_markInvisible (m : WMap) (hs : List Nat) :
    keysW (markInvisible m hs) = keysW m := by
  induction m with
  | nil => rfl
  | cons p t ih =>
    by_cases hc : p.1 ∈ hs <;> simpa [markInvisible, keysW, hc] using ih

theorem keysW_processEntry (now interval : Rat) (m : WMap) (wi : WindowInfo) :
    keysW (processEntry now interval m wi) =
      if containsW m wi.hwnd then keysW m else keysW m ++ [wi.hwnd] := by
  unfold processEntry
  cases hc : containsW m wi.hwnd
  · simp [keysW]
  · simp [keysW_updateEntry]

theorem nodup_keysW_processEntry (now interval : Rat) (m : WMap) (wi : WindowInfo)
    (hnd : (keysW m).Nodup) : (keysW (processEntry now interval m wi)).Nodup := by
  rw [keysW_processEntry]
  cases hc : containsW m wi.hwnd
  · have hnm : wi.hwnd ∉ keysW m := by
      rw [mem_keysW_iff, ← containsW_eq_isSome, hc]
      simp
    simp only [Bool.false_eq_true, if_false]
    rw [List.nodup_append]
    exact ⟨hnd, List.nodup_singleton _,
      fun a ha hb => hnm ((List.mem_singleton.mp hb) ▸ ha)⟩
  · simpa

theorem nodup_keysW_foldl (now interval : Rat) (snap : List WindowInfo) (m : WMap)
    (hnd : (keysW m).Nodup) :
    (keysW (snap.foldl (processEntry now interval) m)).Nodup := by
  induction snap generalizing m with
  | nil => exact hnd
  | cons e t ih => exact ih _ (nodup_keysW_processEntry _ _ _ _ hnd)

theorem nodup_keysW_update_windows (m : WMap) (snap : List WindowInfo)
    (now interval : Rat) (hnd : (keysW m).Nodup) :
    (keysW (update_windows m snap now interval)).Nodup := by
  unfold update_windows
  rw [keysW_markInvisible]
  exact nodup_keysW_foldl _ _ _ _ hnd

theorem lookupW_of_mem (m : WMap) (p : Nat × WindowInfo) (hnd : (keysW m).Nodup)
    (hp : p ∈ m) : lookupW m p.1 = some p.2 := by
  induction m with
  | nil => cases hp
  | cons q t ih =>
    simp only [keysW, List.map_cons, List.nodup_cons] at hnd
    rcases List.mem_cons.mp hp with rfl | hmem
    · simp [lookupW]
    · have hq : ¬ q.1 = p.1 := fun hqe => hnd.1 (hqe ▸ List.mem_map.mpr ⟨p, hmem, rfl⟩)
      simpa [lookupW, hq] using ih hnd.2 hmem

theorem countP_le_one_unique {α : Type} (l : List α) (p : α → Bool)
    (hc : l.countP p ≤ 1) {a b : α} (ha : a ∈ l) (hb : b ∈ l)
    (hpa : p a = true) (hpb : p b = true) : a = b := by
  induction l with
  | nil => cases ha
  | cons x t ih =>
    rw [List.countP_cons] at hc
    rcases List.mem_cons.mp ha with rfl | hat
    · rcases List.mem_cons.mp hb with rfl | hbt
      · rfl
      · exfalso
        have hct : t.countP p = 0 := by rw [if_pos hpa] at hc; omega
        have := List.countP_eq_zero.mp hct b hbt
        simp [hpb] at this
    · rcases List.mem_cons.mp hb with rfl | hbt
      · exfalso
        have hct : t.countP p = 0 := by rw [if_pos hpb] at hc; omega
        have := List.countP_eq_zero.mp hct a hat
        simp [hpa] at this
      · have hle : t.countP p ≤ 1 := le_trans (Nat.le_add_right _ _) hc
        exact ih hle hat hbt

/-- A record that is visible after a cycle owes its `is_active` flag to the
(unique) snapshot entry for its hwnd. -/
theorem visible_record_from_snapshot (m : WMap) (snap : List WindowInfo)
    (now interval : Rat) (h : Nat) (w' : WindowInfo)
    (hnd : (snap.map WindowInfo.hwnd).Nodup)
    (hw : lookupW (update_windows m snap now interval) h = some w')
    (hv : w'.is_visible = true) :
    ∃ e, snap.find? (fun x => x.hwnd == h) = some e ∧ w'.is_active = e.is_active := by
  rw [lookupW_update_windows _ _ _ _ _ hnd] at hw
  cases hf : snap.find? (fun x => x.hwnd == h) with
  | none =>
    rw [hf] at hw
    cases hw' : lookupW m h with
    | none => rw [hw'] at hw; cases hw
    | some w0 =>
      rw [hw'] at hw
      rw [← Option.some.inj hw] at hv
      simp at hv
  | some e =>
    rw [hf] at hw
    refine ⟨e, rfl, ?_⟩
    rw [(Option.some.inj hw).symm]
    cases hl : lookupW m h <;> cases ha : e.is_active <;>
      simp [applyEntry, refreshExisting, WindowInfo.update_times, ha]

/-! ## Claim theorems -/

/-- Claim C5 (confirmed): once an identifier is in the map it is present after
every subsequent reconciliation cycle; a cycle whose snapshot omits it only
sets `is_visible := false` and leaves every other field unchanged; `clear()`
is the operation that empties the map. -/
theorem c5_monotonic_retention (m : WMap) (snap : List WindowInfo)
    (now interval : Rat) (h : Nat)
    (htr : (lookupW m h).isSome) :
    (lookupW (update_windows m snap now interval) h).isSome ∧
    (h ∉ snap.map WindowInfo.hwnd →
      lookupW (update_windows m snap now interval) h =
        (lookupW m h).map (fun w => { w with is_visible := false })) ∧
    clearW m = [] := by
  refine ⟨?_, ?_, rfl⟩
  · unfold update_windows
    rw [lookupW_markInvisible]
    by_cases hc : h ∈ snap.map WindowInfo.hwnd <;>
      simp [hc, lookupW_isSome_foldl _ _ _ _ _ htr]
  · intro hnm
    unfold update_windows
    rw [lookupW_markInvisible]
    have hne : ∀ e ∈ snap, e.hwnd ≠ h := fun e he hx => hnm (List.mem_map.mpr ⟨e, he, hx⟩)
    rw [lookupW_foldl_not_mem _ _ _ _ _ hne, if_neg hnm]

/-- Witness for C5: window 1, tracked after cycle 1 and absent from cycle 2's
snapshot, survives cycle 2 with only `is_visible` flipped. -/
theorem c5_monotonic_retention_witness :
    (lookupW (update_windows mapAfterCycle1 [w2] 2 1) 1).isSome ∧
    lookupW (update_windows mapAfterCycle1 [w2] 2 1) 1 =
      (lookupW mapAfterCycle1 1).map (fun w => { w with is_visible := false }) :=
  ⟨(c5_monotonic_retention mapAfterCycle1 [w2] 2 1 1 (by decide)).1,
   (c5_monotonic_retention mapAfterCycle1 [w2] 2 1 1 (by decide)).2.1 (by decide)⟩

/-- Claim C7 (confirmed): after a reconciliation cycle, a tracked record is
visible iff its identifier appeared in that cycle's snapshot (sources always
construct snapshot entries with `is_visible = True`). -/
theorem c7_visibility_correctness (m : WMap) (snap : List WindowInfo)
    (now interval : Rat) (h : Nat) (w : WindowInfo)
    (hnd : (snap.map WindowInfo.hwnd).Nodup)
    (hvis : ∀ e ∈ snap, e.is_visible = true)
    (hw : lookupW (update_windows m snap now interval) h = some w) :
    (w.is_visible = true ↔ h ∈ snap.map WindowInfo.hwnd) := by
  rw [lookupW_update_windows _ _ _ _ _ hnd] at hw
  cases hf : snap.find? (fun e => e.hwnd == h) with
  | some e =>
    rw [hf] at hw
    have he := List.find?_some hf
    have hem := List.mem_of_find?_eq_some hf
    simp only [beq_iff_eq] at he
    have hvv : w.is_visible = e.is_visible := by
      rw [(Option.some.inj hw).symm]
      cases lookupW m h <;> cases ha : e.is_active <;>
        simp [applyEntry, refreshExisting, WindowInfo.update_times, ha]
    rw [hvv, hvis e hem]
    simp only [true_iff]
    exact List.mem_map.mpr ⟨e, hem, he⟩
  | none =>
    rw [hf] at hw
    have hnm : h ∉ snap.map WindowInfo.hwnd := by
      intro hmem
      obtain ⟨e, hem, hee⟩ := List.mem_map.mp hmem
      have := List.find?_eq_none.mp hf e hem
      simp [hee] at this
    cases hw' : lookupW m h with
    | none => rw [hw'] at hw; cases hw
    | some w0 =>
      rw [hw'] at hw
      rw [(Option.some.inj hw).symm]
      simp [hnm]

/-- Witness for C7: record 2 after cycle 2 is visible and its hwnd is in the
cycle-2 snapshot. -/
theorem c7_visibility_witness :
    ((⟨2, "Browser", "browser", 2, 2, 0, 0, true, true⟩ : WindowInfo).is_visible = true ↔
      2 ∈ [w2].map WindowInfo.hwnd) :=
  c7_visibility_correctness mapAfterCycle1 [w2] 2 1 2 _ (by decide) (by decide) (by decide)

/-- Snapshot entry for window 1 whose owning process name changed. -/
def w1newproc : WindowInfo := ⟨1, "Editor", "editor2", 0, 0, 0, 0, true, true⟩

/-- Claim C6 counterexample: a cycle that observes tracked window 1 with a new
`process_name` ("editor2") leaves the stored record's `process_name` at its
old value ("editor") — the engine never refreshes `process_name`. -/
theorem c6_counterexample :
    (lookupW (update_windows mapAfterCycle1 [w1newproc] 2 1) 1).map
        WindowInfo.process_name = some "editor" ∧
    "editor" ≠ "editor2" := by decide

/-- Claim C6 (amended): a cycle observing a tracked identifier applies the
time update and refreshes `title`, `is_visible` and `is_active` from the
snapshot entry, but does NOT refresh `process_name`, which keeps the value
stored at first observation. -/
theorem c6_refresh_amended (m : WMap) (snap : List WindowInfo) (now interval : Rat)
    (h : Nat) (w e : WindowInfo)
    (hnd : (snap.map WindowInfo.hwnd).Nodup)
    (hw : lookupW m h = some w)
    (he : snap.find? (fun x => x.hwnd == h) = some e) :
    ∃ r, lookupW (update_windows m snap now interval) h = some r ∧
      r.title = e.title ∧
      r.process_name = w.process_name ∧
      r.is_active = e.is_active ∧
      r.is_visible = e.is_visible ∧
      r.first_seen = w.first_seen ∧
      r.last_seen = now ∧
      r.total_open_time = now - w.first_seen ∧
      r.active_time = w.active_time + (if e.is_active then interval else 0) := by
  have hlook : lookupW (update_windows m snap now interval) h =
      some (refreshExisting now interval e w) := by
    rw [lookupW_update_windows _ _ _ _ _ hnd, he, hw]
    rfl
  refine ⟨refreshExisting now interval e w, hlook, ?_⟩
  cases ha : e.is_active <;>
    simp [refreshExisting, WindowInfo.update_times, ha]

/-- Witness for C6 (amended) at the concrete changed-process scenario. -/
theorem c6_refresh_amended_witness :
    ∃ r, lookupW (update_windows mapAfterCycle1 [w1newproc] 2 1) 1 = some r ∧
      r.title = w1newproc.title ∧
      r.process_name = WindowInfo.process_name ⟨1, "Editor", "editor", 1, 1, 0, 0, true, true⟩ ∧
      r.is_active = w1newproc.is_active ∧
      r.is_visible = w1newproc.is_visible ∧
      r.first_seen = WindowInfo.first_seen ⟨1, "Editor", "editor", 1, 1, 0, 0, true, true⟩ ∧
      r.last_seen = 2 ∧
      r.total_open_time =
        2 - WindowInfo.first_seen ⟨1, "Editor", "editor", 1, 1, 0, 0, true, true⟩ ∧
      r.active_time =
        WindowInfo.active_time ⟨1, "Editor", "editor", 1, 1, 0, 0, true, true⟩ +
          (if w1newproc.is_active then 1 else 0) :=
  c6_refresh_amended mapAfterCycle1 [w1newproc] 2 1 1 _ w1newproc
    (by decide) (by decide) (by decide)

/-- Claim C2 counterexample: the source reports a single focused identifier on
every cycle (window 1 on cycle 1, window 2 on cycle 2, with window 1 absent
from cycle 2's snapshot), yet after cycle 2 TWO records have
`is_active = true` — the ghost record keeps its stale flag. -/
theorem c2_counterexample :
    [w1].countP (fun e => e.is_active) ≤ 1 ∧
    [w2].countP (fun e => e.is_active) ≤ 1 ∧
    mapAfterCycle2.countP (fun p => p.2.is_active) = 2 := by decide

/-- Claim C2 (amended): after any reconciliation cycle, at most one VISIBLE
record has `is_active = true`, for any prior map with distinct keys and any
snapshot with distinct hwnds and at most one focused entry. (An invisible
ghost record may retain a stale `is_active = true`.) -/
theorem c2_single_focus_visible (m : WMap) (snap : List WindowInfo)
    (now interval : Rat)
    (hm : (keysW m).Nodup)
    (hnd : (snap.map WindowInfo.hwnd).Nodup)
    (hfocus : snap.countP (fun e => e.is_active) ≤ 1)
    (p q : Nat × WindowInfo)
    (hp : p ∈ update_windows m snap now interval)
    (hq : q ∈ update_windows m snap now interval)
    (hpa : p.2.is_active = true) (hpv : p.2.is_visible = true)
    (hqa : q.2.is_active = true) (hqv : q.2.is_visible = true) : p = q := by
  have hndm' := nodup_keysW_update_windows m snap now interval hm
  have hlp := lookupW_of_mem _ p hndm' hp
  have hlq := lookupW_of_mem _ q hndm' hq
  obtain ⟨ep, hfp, hpae⟩ :=
    visible_record_from_snapshot m snap now interval p.1 p.2 hnd hlp hpv
  obtain ⟨eq', hfq, hqae⟩ :=
    visible_record_from_snapshot m snap now interval q.1 q.2 hnd hlq hqv
  have hepa : ep.is_active = true := by rw [← hpae]; exact hpa
  have heqa : eq'.is_active = true := by rw [← hqae]; exact hqa
  have heq : ep = eq' :=
    countP_le_one_unique snap _ hfocus (List.mem_of_find?_eq_some hfp)
      (List.mem_of_find?_eq_some hfq) hepa heqa
  have h1 : ep.hwnd = p.1 := by simpa using List.find?_some hfp
  have h2 : eq'.hwnd = q.1 := by simpa using List.find?_some hfq
  have hkey : p.1 = q.1 := by rw [← h1, ← h2, heq]
  have h22 : p.2 = q.2 := Option.some.inj (by rw [← hlp, ← hlq, hkey])
  exact Prod.ext hkey h22

/-- Witness for C2 (amended) at the cycle-2 scenario. -/
theorem c2_single_focus_visible_witness :
    ((2 : Nat), (⟨2, "Browser", "browser", 2, 2, 0, 0, true, true⟩ : WindowInfo)) =
      ((2 : Nat), (⟨2, "Browser", "browser", 2, 2, 0, 0, true, true⟩ : WindowInfo)) :=
  c2_single_focus_visible mapAfterCycle1 [w2] 2 1 (by decide) (by decide) (by decide)
    _ _ (by decide) (by decide) (by decide) (by decide) (by decide) (by decide)

/-- Claim C1 counterexample: the spec's scenario 1 run on the simulation path
(source reports window 1 "Editor" focused, one cycle with interval 1).
The freshly inserted record has `active_time = 0`, not ≈ 1.0: `update_times`
is only ever called on already-tracked records, so the creation cycle's
interval is never credited. -/
theorem c1_counterexample :
    (lookupW (update_windows_sim [] [(1, "Editor", "editor")] (some 1) 1 1) 1).map
        WindowInfo.active_time = some 0 ∧
    (0 : Rat) ≠ 1 := by decide

/-- Claim C1 (amended): a window identifier first observed in a cycle and
reported focused is inserted as a new record with `first_seen = last_seen =
now`, `active_time = 0` (accumulation only starts on later cycles),
`total_open_time = 0`, `is_active = true` and `is_visible = true`. -/
theorem c1_new_window_amended (m : WMap) (h : Nat) (t pn : String)
    (now interval : Rat) (hnew : lookupW m h = none) :
    lookupW (update_windows_sim m [(h, t, pn)] (some h) now interval) h =
      some ⟨h, t, pn, now, now, 0, 0, true, true⟩ := by
  have hc : containsW m h = false := by
    rw [containsW_eq_isSome, hnew]
    rfl
  unfold update_windows_sim
  rw [lookupW_markInvisible]
  simp only [List.map_cons, List.map_nil, List.foldl_cons, List.foldl_nil,
    List.mem_singleton, if_pos rfl]
  unfold processEntrySim
  simp only [hc, Bool.false_eq_true, if_false, beq_self_eq_true]
  exact lookupW_append_self _ _ _ hnew

/-- Witness for C1 (amended) at the spec's concrete scenario. -/
theorem c1_new_window_amended_witness :
    lookupW (update_windows_sim [] [(1, "Editor", "editor")] (some 1) 1 1) 1 =
      some ⟨1, "Editor", "editor", 1, 1, 0, 0, true, true⟩ :=
  c1_new_window_amended [] 1 "Editor" "editor" 1 1 (by decide)

/-! ## The tracking loop as a state machine -/

/-- State owned by `TimeTracker`: the guarded map, the previous-cycle
timestamp (`self._last_update_time`) and the running flag. -/
structure TrackerState where
  windows : WMap
  last_update_time : Rat
  running : Bool
deriving DecidableEq, Repr

/-- One iteration of `TimeTracker._tracking_loop` at wall-clock time `now`.
`poll` models the source call inside `_update_windows`: `.ok snap` is a
successful `enumerate_windows()` snapshot, `.error` an exception raised by
the source. The code computes `interval = now - _last_update_time` and
advances `_last_update_time` BEFORE calling `_update_windows`, so a failed
poll still advances the timestamp; the `except` handler (lines 124-126)
leaves the map and the running flag untouched and the loop continues. -/
def trackingStep (s : TrackerState) (now : Rat)
    (poll : Except String (List WindowInfo)) : TrackerState :=
  if s.running then
    match poll with
    | Except.ok snap =>
        { s with last_update_time := now,
                 windows := update_windows s.windows snap now (now - s.last_update_time) }
    | Except.error _ => { s with last_update_time := now }
  else s

/-- `TimeTracker.clear()` at state level. -/
def clearState (s : TrackerState) : TrackerState := { s with windows := [] }

/-- A well-formed poll result: a successful snapshot lists each hwnd once
and carries freshly constructed records (both native trackers build
`WindowInfo(...)` with the default zero `active_time`/`total_open_time`). -/
def PollWF (poll : Except String (List WindowInfo)) : Prop :=
  ∀ snap, poll = Except.ok snap →
    (snap.map WindowInfo.hwnd).Nodup ∧
    ∀ e ∈ snap, e.active_time = 0 ∧ e.total_open_time = 0

/-- Engine states reachable from `start()` (empty map, current time, running)
through reconciliation cycles at non-decreasing wall-clock times, with
`clear()` allowed at any point. -/
inductive Reaches : TrackerState → Prop
  | init (t0 : Rat) : Reaches ⟨[], t0, true⟩
  | step (s : TrackerState) (now : Rat) (poll : Except String (List WindowInfo)) :
      Reaches s → s.last_update_time ≤ now → PollWF poll →
      Reaches (trackingStep s now poll)
  | clearStep (s : TrackerState) : Reaches s → Reaches (clearState s)

theorem mem_of_lookupW (m : WMap) (h : Nat) (w : WindowInfo)
    (hl : lookupW m h = some w) : (h, w) ∈ m := by
  induction m with
  | nil => cases hl
  | cons p t ih =>
    by_cases hp : p.1 = h
    · simp only [lookupW, if_pos hp] at hl
      rw [← Option.some.inj hl, ← hp]
      exact List.mem_cons_self _ _
    · simp only [lookupW, if_neg hp] at hl
      exact List.mem_cons_of_mem _ (ih hl)

theorem trackingStep_not_running (s : TrackerState) (now : Rat)
    (poll : Except String (List WindowInfo)) (hr : s.running = false) :
    trackingStep s now poll = s := by
  simp [trackingStep, hr]

theorem trackingStep_error (s : TrackerState) (now : Rat) (msg : String)
    (hr : s.running = true) :
    trackingStep s now (Except.error msg) = { s with last_update_time := now } := by
  simp [trackingStep, hr]

theorem trackingStep_ok (s : TrackerState) (now : Rat) (snap : List WindowInfo)
    (hr : s.running = true) :
    trackingStep s now (Except.ok snap) =
      { s with last_update_time := now,
               windows := update_windows s.windows snap now (now - s.last_update_time) } := by
  simp [trackingStep, hr]

theorem applyEntry_some_active (now interval : Rat) (wi w : WindowInfo)
    (ha : wi.is_active = true) :
    applyEntry now interval wi (some w) =
      ⟨w.hwnd, wi.title, w.process_name, w.first_seen, now, now - w.first_seen,
       w.active_time + interval, true, wi.is_visible⟩ := by
  simp [applyEntry, refreshExisting, WindowInfo.update_times, ha]

theorem applyEntry_some_inactive (now interval : Rat) (wi w : WindowInfo)
    (ha : wi.is_active = false) :
    applyEntry now interval wi (some w) =
      ⟨w.hwnd, wi.title, w.process_name, w.first_seen, now, now - w.first_seen,
       w.active_time, false, wi.is_visible⟩ := by
  simp [applyEntry, refreshExisting, WindowInfo.update_times, ha]

/-- The inductive time invariant maintained by every reachable state. -/
def TimeInv (s : TrackerState) : Prop :=
  (keysW s.windows).Nodup ∧
  ∀ p ∈ s.windows,
    0 ≤ p.2.active_time ∧
    p.2.active_time ≤ p.2.total_open_time ∧
    p.2.total_open_time ≤ s.last_update_time - p.2.first_seen

theorem timeInv_step (s : TrackerState) (now : Rat)
    (poll : Except String (List WindowInfo))
    (hinv : TimeInv s) (hle : s.last_update_time ≤ now) (hwf : PollWF poll) :
    TimeInv (trackingStep s now poll) := by
  cases hr : s.running with
  | false => rw [trackingStep_not_running _ _ _ hr]; exact hinv
  | true =>
    cases poll with
    | error msg =>
      rw [trackingStep_error _ _ _ hr]
      refine ⟨hinv.1, fun p hp => ?_⟩
      obtain ⟨h0, h1, h2⟩ := hinv.2 p hp
      refine ⟨h0, h1, ?_⟩
      show p.2.total_open_time ≤ now - p.2.first_seen
      linarith
    | ok snap =>
      obtain ⟨hnd, hzero⟩ := hwf snap rfl
      rw [trackingStep_ok _ _ _ hr]
      have hnd' := nodup_keysW_update_windows s.windows snap now
        (now - s.last_update_time) hinv.1
      refine ⟨hnd', fun p hp => ?_⟩
      have hlp := lookupW_of_mem _ p hnd' hp
      rw [lookupW_update_windows _ _ _ _ _ hnd] at hlp
      show 0 ≤ p.2.active_time ∧ p.2.active_time ≤ p.2.total_open_time ∧
        p.2.total_open_time ≤ now - p.2.first_seen
      cases hf : snap.find? (fun e => e.hwnd == p.1) with
      | none =>
        rw [hf] at hlp
        cases hl : lookupW s.windows p.1 with
        | none => rw [hl] at hlp; cases hlp
        | some w0 =>
          rw [hl] at hlp
          obtain ⟨h0, h1, h2⟩ := hinv.2 (p.1, w0) (mem_of_lookupW _ _ _ hl)
          have h0' : (0 : Rat) ≤ w0.active_time := h0
          have h1' : w0.active_time ≤ w0.total_open_time := h1
          have h2' : w0.total_open_time ≤ s.last_update_time - w0.first_seen := h2
          rw [← Option.some.inj hlp]
          refine ⟨h0', h1', ?_⟩
          show w0.total_open_time ≤ now - w0.first_seen
          linarith
      | some e =>
        rw [hf] at hlp
        have hes := hzero e (List.mem_of_find?_eq_some hf)
        have hpe := Option.some.inj hlp
        cases hl : lookupW s.windows p.1 with
        | none =>
          rw [hl] at hpe
          rw [← hpe]
          show 0 ≤ e.active_time ∧ e.active_time ≤ e.total_open_time ∧
            e.total_open_time ≤ now - now
          rw [hes.1, hes.2]
          norm_num
        | some w0 =>
          rw [hl] at hpe
          obtain ⟨h0, h1, h2⟩ := hinv.2 (p.1, w0) (mem_of_lookupW _ _ _ hl)
          have h0' : (0 : Rat) ≤ w0.active_time := h0
          have h1' : w0.active_time ≤ w0.total_open_time := h1
          have h2' : w0.total_open_time ≤ s.last_update_time - w0.first_seen := h2
          cases ha : e.is_active with
          | false =>
            rw [← hpe, applyEntry_some_inactive _ _ _ _ ha]
            show 0 ≤ w0.active_time ∧ w0.active_time ≤ now - w0.first_seen ∧
              now - w0.first_seen ≤ now - w0.first_seen
            exact ⟨h0', by linarith, le_refl _⟩
          | true =>
            rw [← hpe, applyEntry_some_active _ _ _ _ ha]
            show 0 ≤ w0.active_time + (now - s.last_update_time) ∧
              w0.active_time + (now - s.last_update_time) ≤ now - w0.first_seen ∧
              now - w0.first_seen ≤ now - w0.first_seen
            exact ⟨by linarith, by linarith, le_refl _⟩

theorem timeInv_reaches (s : TrackerState) (hs : Reaches s) : TimeInv s := by
  induction hs with
  | init t0 => exact ⟨List.nodup_nil, fun p hp => absurd hp (List.not_mem_nil p)⟩
  | step s now poll hr hle hwf ih => exact timeInv_step _ _ _ ih hle hwf
  | clearStep s hr ih => exact ⟨List.nodup_nil, fun p hp => absurd hp (List.not_mem_nil p)⟩

/-- Claim C4 (confirmed): in every reachable engine state every record
satisfies `active_time ≤ total_open_time`, and across a further cycle at a
later wall-clock time a surviving record's `total_open_time` (recomputed as
`now - first_seen`) never decreases. -/
theorem c4_time_invariant (s : TrackerState) (hs : Reaches s) (h : Nat)
    (w : WindowInfo) (hw : lookupW s.windows h = some w) :
    w.active_time ≤ w.total_open_time ∧
    ∀ (now : Rat) (poll : Except String (List WindowInfo)) (w' : WindowInfo),
      s.last_update_time ≤ now → PollWF poll →
      lookupW (trackingStep s now poll).windows h = some w' →
      w.total_open_time ≤ w'.total_open_time := by
  have hinv := timeInv_reaches s hs
  obtain ⟨h0, h1, h2⟩ := hinv.2 (h, w) (mem_of_lookupW _ _ _ hw)
  have h1' : w.active_time ≤ w.total_open_time := h1
  have h2' : w.total_open_time ≤ s.last_update_time - w.first_seen := h2
  refine ⟨h1', ?_⟩
  intro now poll w' hle hwf hl'
  cases hr : s.running with
  | false =>
    rw [trackingStep_not_running _ _ _ hr] at hl'
    rw [hw] at hl'
    rw [← Option.some.inj hl']
  | true =>
    cases poll with
    | error msg =>
      rw [trackingStep_error _ _ _ hr] at hl'
      have hl'' : lookupW s.windows h = some w' := hl'
      rw [hw] at hl''
      rw [← Option.some.inj hl'']
    | ok snap =>
      obtain ⟨hnd, hzero⟩ := hwf snap rfl
      rw [trackingStep_ok _ _ _ hr] at hl'
      have hl'' : lookupW (update_windows s.windows snap now
          (now - s.last_update_time)) h = some w' := hl'
      rw [lookupW_update_windows _ _ _ _ _ hnd, hw] at hl''
      cases hf : snap.find? (fun e => e.hwnd == h) with
      | none =>
        rw [hf] at hl''
        rw [← Option.some.inj hl'']
      | some e =>
        rw [hf] at hl''
        have hpe := Option.some.inj hl''
        cases ha : e.is_active with
        | false =>
          rw [← hpe, applyEntry_some_inactive _ _ _ _ ha]
          show w.total_open_time ≤ now - w.first_seen
          linarith
        | true =>
          rw [← hpe, applyEntry_some_active _ _ _ _ ha]
          show w.total_open_time ≤ now - w.first_seen
          linarith

/-- Initial engine state as `start()` leaves it at time 0. -/
def s0 : TrackerState := ⟨[], 0, true⟩

/-- Engine state after one successful cycle at time 1 observing window 1. -/
def s1 : TrackerState := trackingStep s0 1 (Except.ok [w1])

theorem pollWF_w1 : PollWF (Except.ok [w1]) := by
  intro snap hsn
  cases hsn
  exact ⟨by decide, by decide⟩

theorem reaches_s1 : Reaches s1 :=
  Reaches.step s0 1 (Except.ok [w1]) (Reaches.init 0) (by decide) pollWF_w1

/-- Witness for C4 at the concrete run: record 1 after cycle 1 (time 1), then
a second focused cycle at time 2. -/
theorem c4_time_invariant_witness :
    WindowInfo.active_time ⟨1, "Editor", "editor", 1, 1, 0, 0, true, true⟩ ≤
      WindowInfo.total_open_time ⟨1, "Editor", "editor", 1, 1, 0, 0, true, true⟩ ∧
    WindowInfo.total_open_time ⟨1, "Editor", "editor", 1, 1, 0, 0, true, true⟩ ≤
      WindowInfo.total_open_time ⟨1, "Editor", "editor", 1, 2, 2 - 1, 0 + (2 - 1), true, true⟩ :=
  ⟨(c4_time_invariant s1 reaches_s1 1 ⟨1, "Editor", "editor", 1, 1, 0, 0, true, true⟩
      (by decide)).1,
   (c4_time_invariant s1 reaches_s1 1 ⟨1, "Editor", "editor", 1, 1, 0, 0, true, true⟩
      (by decide)).2 2 (Except.ok [w1])
      ⟨1, "Editor", "editor", 1, 2, 2 - 1, 0 + (2 - 1), true, true⟩
      (by decide) pollWF_w1 (by rfl)⟩

/-- Claim C8 (confirmed): a poll that raises is caught — the map and the
running flag are unchanged by the failed cycle — and the next successful
cycle reconciles normally against the retained state. -/
theorem c8_failed_poll_resilience (s : TrackerState) (now now' : Rat)
    (msg : String) (snap : List WindowInfo) (hr : s.running = true) :
    (trackingStep s now (Except.error msg)).windows = s.windows ∧
    (trackingStep s now (Except.error msg)).running = true ∧
    (trackingStep (trackingStep s now (Except.error msg)) now'
        (Except.ok snap)).windows =
      update_windows s.windows snap now' (now' - now) := by
  unfold trackingStep
  simp [hr]

/-- Witness for C8: a failing poll at time 2 after cycle 1, then a recovered
cycle at time 3. -/
theorem c8_failed_poll_resilience_witness :
    (trackingStep ⟨mapAfterCycle1, 1, true⟩ 2 (Except.error "boom")).windows =
      mapAfterCycle1 ∧
    (trackingStep ⟨mapAfterCycle1, 1, true⟩ 2 (Except.error "boom")).running = true ∧
    (trackingStep (trackingStep ⟨mapAfterCycle1, 1, true⟩ 2 (Except.error "boom")) 3
        (Except.ok [w2])).windows =
      update_windows mapAfterCycle1 [w2] 3 (3 - 2) :=
  c8_failed_poll_resilience ⟨mapAfterCycle1, 1, true⟩ 2 3 "boom" [w2] rfl

/-! ## Reference model for the read accessors (C3)

Python hands out object references: `list(self._windows.values())` copies
only the list spine, its elements being the live `WindowInfo` objects, and
`self._windows.get(hwnd)` returns the live object itself. The object store
is modelled explicitly: `heap` is the addressable store (an index is an
object reference) and the dict maps each hwnd to a reference; the
reconciliation cycle mutates records in place through their references. -/

structure HeapState where
  heap : List WindowInfo
  wmap : List (Nat × Nat)
deriving DecidableEq, Repr

/-- The object reference the live dict stores for `hwnd`. -/
def refFor (s : HeapState) (h : Nat) : Option Nat :=
  (s.wmap.find? (fun p => p.1 == h)).map Prod.snd

/-- `TimeTracker.get_window(hwnd)`: returns `self._windows.get(hwnd)` — the
live object reference, no copy is made. -/
def get_window (s : HeapState) (h : Nat) : Option Nat := refFor s h

/-- `TimeTracker.get_all_windows()`: `list(self._windows.values())` — a fresh
list whose elements are the live object references. -/
def get_all_windows (s : HeapState) : List Nat := s.wmap.map Prod.snd

/-- Read the object behind a reference. -/
def deref (s : HeapState) (r : Nat) : Option WindowInfo := s.heap[r]?

/-- One snapshot entry of `_update_windows` in the reference model: an
already-tracked record is mutated IN PLACE through its stored reference; a
new record is allocated at the end of the store and its reference recorded. -/
def heapProcessEntry (now interval : Rat) (s : HeapState) (wi : WindowInfo) :
    HeapState :=
  match (s.wmap.find? (fun p => p.1 == wi.hwnd)).map Prod.snd with
  | some r =>
      match s.heap[r]? with
      | some w => { s with heap := s.heap.set r (refreshExisting now interval wi w) }
      | none => s
  | none =>
      { heap := s.heap ++ [{ wi with first_seen := now, last_seen := now }],
        wmap := s.wmap ++ [(wi.hwnd, s.heap.length)] }

/-- The trailing visibility pass of `_update_windows` in the reference model:
each record whose hwnd is absent from the snapshot is mutated in place. -/
def heapMarkInvisible (s : HeapState) (hs : List Nat) : HeapState :=
  { s with heap := s.wmap.foldl (fun hp p =>
      if p.1 ∈ hs then hp
      else
        match hp[p.2]? with
        | some w => hp.set p.2 { w with is_visible := false }
        | none => hp) s.heap }

/-- `_update_windows` in the reference model. -/
def heap_update_windows (s : HeapState) (snap : List WindowInfo)
    (now interval : Rat) : HeapState :=
  heapMarkInvisible (snap.foldl (heapProcessEntry now interval) s)
    (snap.map WindowInfo.hwnd)

/-- Reference-model engine state before any cycle. -/
def hs0 : HeapState := ⟨[], []⟩

/-- Reference-model state after cycle 1 (window 1 focused, now = 1). -/
def hs1 : HeapState := heap_update_windows hs0 [w1] 1 1

/-- Reference-model state after cycle 2 (window 1 focused again, now = 2). -/
def hs2 : HeapState := heap_update_windows hs1 [w1] 2 1

/-- Claim C3 counterexample: `get_window` returns the live reference
(index 0); the next reconciliation cycle mutates the object behind that very
reference, so the record the reader holds changes fields (`last_seen` moves
from 1 to 2) — the accessors do NOT return copies that share no mutable
state with the engine's live map. -/
theorem c3_counterexample :
    get_window hs1 1 = some 0 ∧
    (deref hs1 0).map WindowInfo.last_seen = some 1 ∧
    (deref hs2 0).map WindowInfo.last_seen = some 2 ∧
    deref hs2 0 ≠ deref hs1 0 := by
  refine ⟨rfl, rfl, rfl, ?_⟩
  intro heq
  have h1 : (deref hs2 0).map WindowInfo.last_seen = some 2 := rfl
  have h2 : (deref hs1 0).map WindowInfo.last_seen = some 1 := rfl
  rw [heq] at h1
  have h3 : (2 : Rat) = 1 := Option.some.inj (h1.symm.trans h2)
  norm_num at h3

/-- Claim C3 (amended): `get_window` returns the reference stored in the live
dict (not a copy), and a subsequent cycle observing the same hwnd mutates the
record behind that previously returned reference in place;
`get_all_windows` copies only the list spine of references. -/
theorem c3_accessors_alias (s : HeapState) (h r : Nat) (w e : WindowInfo)
    (now interval : Rat)
    (hmap : s.wmap = [(h, r)])
    (hw : deref s r = some w)
    (he : e.hwnd = h) :
    get_window s h = some r ∧
    get_all_windows s = s.wmap.map Prod.snd ∧
    deref (heap_update_windows s [e] now interval) r =
      some (refreshExisting now interval e w) := by
  subst he
  refine ⟨by simp [get_window, refFor, hmap], rfl, ?_⟩
  have hwr : s.heap[r]? = some w := hw
  have hlen : r < s.heap.length := (List.getElem?_eq_some.mp hwr).1
  have hstep : heapProcessEntry now interval s e =
      { s with heap := s.heap.set r (refreshExisting now interval e w) } := by
    unfold heapProcessEntry
    rw [hmap]
    simp [hwr]
  unfold heap_update_windows
  simp only [List.map_cons, List.map_nil, List.foldl_cons, List.foldl_nil]
  rw [hstep]
  unfold heapMarkInvisible deref
  simp only [hmap, List.foldl_cons, List.foldl_nil, List.mem_singleton, if_pos rfl]
  exact List.getElem?_set_eq_of_lt _ hlen

/-- Witness for C3 (amended): the reference obtained from `get_window` after
cycle 1 dereferences, after a further cycle, to the refreshed record. -/
theorem c3_accessors_alias_witness :
    get_window hs1 1 = some 0 ∧
    get_all_windows hs1 = hs1.wmap.map Prod.snd ∧
    deref (heap_update_windows hs1 [w1] 2 1) 0 =
      some (refreshExisting 2 1 w1 ⟨1, "Editor", "editor", 1, 1, 0, 0, true, true⟩) :=
  c3_accessors_alias hs1 1 0 ⟨1, "Editor", "editor", 1, 1, 0, 0, true, true⟩ w1 2 1
    (by rfl) (by rfl) (by rfl)

/-! ## Platform source selection (C9) -/

/-- Environment probed by the factory: `sys.platform` plus whether the
optional native bindings imported successfully (the `WINDOWS_AVAILABLE` /
`MACOS_AVAILABLE` module flags set by the try/except import blocks). -/
structure PlatformEnv where
  platform : String
  windows_available : Bool
  macos_available : Bool
deriving DecidableEq, Repr

/-- `WindowsWindowTracker.is_supported()`:
`sys.platform == 'win32' and WINDOWS_AVAILABLE`. -/
def windows_is_supported (env : PlatformEnv) : Bool :=
  env.platform == "win32" && env.windows_available

/-- `MacOSWindowTracker.is_supported()`:
`sys.platform == 'darwin' and MACOS_AVAILABLE`. -/
def macos_is_supported (env : PlatformEnv) : Bool :=
  env.platform == "darwin" && env.macos_available

/-- The tracker variants the factory can return. -/
inductive TrackerKind
  | windowsTracker
  | macosTracker
deriving DecidableEq, Repr

/-- The `RuntimeError` message built by `create_window_tracker` when no
variant is supported (window_tracker_factory.py lines 34-40). -/
def unsupportedMsg (env : PlatformEnv) : String :=
  let base := "Unsupported platform: " ++ env.platform ++
    ". This application requires Windows or macOS."
  if env.platform == "win32" then
    base ++ "\n\nWindows detected but pywin32 is not installed. Install with:\n  pip install pywin32"
  else if env.platform == "darwin" then
    base ++ "\n\nmacOS detected but PyObjC is not installed. Install with:\n  pip install pyobjc-core pyobjc-framework-Cocoa pyobjc-framework-Quartz"
  else base

/-- `create_window_tracker()`: probe Windows first, then macOS, else raise
`RuntimeError` with the message above. -/
def create_window_tracker (env : PlatformEnv) : Except String TrackerKind :=
  if windows_is_supported env then Except.ok TrackerKind.windowsTracker
  else if macos_is_supported env then Except.ok TrackerKind.macosTracker
  else Except.error (unsupportedMsg env)

/-- Claim C9 (confirmed): the factory probes Windows first, then macOS,
returning the first supported variant; when neither qualifies it fails with
a message that names the missing optional dependency on a recognised
platform (pywin32 on win32, PyObjC on darwin) and, on an unrecognised
platform, just reports the platform as unsupported. -/
theorem c9_source_selector (env : PlatformEnv) :
    (windows_is_supported env = true →
      create_window_tracker env = Except.ok TrackerKind.windowsTracker) ∧
    (windows_is_supported env = false → macos_is_supported env = true →
      create_window_tracker env = Except.ok TrackerKind.macosTracker) ∧
    (env.platform = "win32" → env.windows_available = false →
      create_window_tracker env = Except.error
        ("Unsupported platform: win32. This application requires Windows or macOS." ++
         "\n\nWindows detected but pywin32 is not installed. Install with:\n  pip install pywin32")) ∧
    (env.platform = "darwin" → env.macos_available = false →
      create_window_tracker env = Except.error
        ("Unsupported platform: darwin. This application requires Windows or macOS." ++
         "\n\nmacOS detected but PyObjC is not installed. Install with:\n  pip install pyobjc-core pyobjc-framework-Cocoa pyobjc-framework-Quartz")) ∧
    (env.platform ≠ "win32" → env.platform ≠ "darwin" →
      create_window_tracker env = Except.error
        ("Unsupported platform: " ++ env.platform ++
         ". This application requires Windows or macOS.")) := by
  refine ⟨?_, ?_, ?_, ?_, ?_⟩
  · intro hwin
    simp [create_window_tracker, hwin]
  · intro hwin hmac
    simp [create_window_tracker, hwin, hmac]
  · intro hplat hwa
    have hwin : windows_is_supported env = false := by
      simp [windows_is_supported, hwa]
    have hmac : macos_is_supported env = false := by
      simp [macos_is_supported, hplat]
    simp [create_window_tracker, hwin, hmac, unsupportedMsg, hplat]
  · intro hplat hma
    have hwin : windows_is_supported env = false := by
      simp [windows_is_supported, hplat]
    have hmac : macos_is_supported env = false := by
      simp [macos_is_supported, hma]
    simp [create_window_tracker, hwin, hmac, unsupportedMsg, hplat]
  · intro hplat1 hplat2
    have hwin : windows_is_supported env = false := by
      simp [windows_is_supported, hplat1]
    have hmac : macos_is_supported env = false := by
      simp [macos_is_supported, hplat2]
    simp [create_window_tracker, hwin, hmac, unsupportedMsg, hplat1, hplat2]

/-- Witness for C9: win32 without pywin32 is rejected with the message that
names the missing dependency. -/
theorem c9_source_selector_witness :
    create_window_tracker ⟨"win32", false, false⟩ = Except.error
      ("Unsupported platform: win32. This application requires Windows or macOS." ++
       "\n\nWindows detected but pywin32 is not installed. Install with:\n  pip install pywin32") :=
  (c9_source_selector ⟨"win32", false, false⟩).2.2.1 rfl rfl

/-- Claim C10 (confirmed): `get_stats` reports as active window the FIRST
record with `is_active = true` in dict order, never checking `is_visible`:
after cycle 2 it names ghost record 1 ("Editor"), which is invisible and was
absent from that cycle's snapshot. -/
theorem c10_get_stats_ghost_active :
    (get_stats mapAfterCycle2 true false).active_window = some "Editor" ∧
    (lookupW mapAfterCycle2 1).map WindowInfo.is_visible = some false ∧
    1 ∉ [w2].map WindowInfo.hwnd := by decide
